import Mathlib

/-!
Verification of the terminal video player (`src/main.rs`): glyph mapping,
frame rendering, playback scheduling, frame-rate probing fallback and the
run-level effect order (extraction, playback, cache cleanup).
-/

/-- Shallow embedding of `get_pixel_char` (src/main.rs lines 198-214).
The Rust `match` on a `u8` with inclusive range patterns is rendered as the
equivalent chain of conditionals; the wildcard arm `_ => '@'` is the final
`else`. -/
def get_pixel_char (luminosity : Nat) : Char :=
  if luminosity = 0 then ' '
  else if luminosity ≤ 21 then '.'
  else if luminosity ≤ 43 then ','
  else if luminosity ≤ 65 then '-'
  else if luminosity ≤ 87 then '~'
  else if luminosity ≤ 109 then ':'
  else if luminosity ≤ 131 then ';'
  else if luminosity ≤ 153 then '='
  else if luminosity ≤ 175 then '!'
  else if luminosity ≤ 197 then '*'
  else if luminosity ≤ 219 then '#'
  else if luminosity ≤ 241 then '$'
  else '@'

/-- Spec-side bucket table from §4.1 of the specification: inclusive ranges
with their glyphs, written down independently of `get_pixel_char`. -/
def bucketTable : List (Nat × Nat × Char) :=
  [(0, 0, ' '), (1, 21, '.'), (22, 43, ','), (44, 65, '-'), (66, 87, '~'),
   (88, 109, ':'), (110, 131, ';'), (132, 153, '='), (154, 175, '!'),
   (176, 197, '*'), (198, 219, '#'), (220, 241, '$'), (242, 255, '@')]

/-- Spec-side glyph lookup: the glyph of the first bucket of `bucketTable`
whose inclusive range contains the luminance. -/
def specGlyph (l : Nat) : Char :=
  match bucketTable.find? (fun b => decide (b.1 ≤ l) && decide (l ≤ b.2.1)) with
  | some b => b.2.2
  | none => '?'


/-- Shallow embedding of the per-frame rendering loop of `display_loop`
(src/main.rs lines 167-174): for each row `y` in `0..height`, a glyph per
column `x` in `0..width` followed by a newline. The image is modelled as a
total luma function `x y ↦ luminance`, standing for
`frame.get_pixel(x, y).to_luma()` channel 0. -/
def render (img : Nat → Nat → Nat) (width height : Nat) : List Char :=
  (List.range height).flatMap
    (fun y => (List.range width).map (fun x => get_pixel_char (img x y)) ++ ['\n'])


/-- Terminal-output events emitted by `display_loop` (src/main.rs lines
144-195), in source order: `clearHome` = `ESC[2J ESC[H]`, `hideCursor` =
`ESC[?25l`, `disableWrap` = `ESC[?7l`, `home` = `ESC[H]`, `write b` = one
frame blob printed in a single write, `flushEv` = a successful
`stdout().flush()`, `sleep us` = `thread::sleep` of `us` microseconds,
`enableWrap` = `ESC[?7h`, `showCursor` = `ESC[?25h`, `clearHomeEnd` =
the final `ESC[H ESC[2J]`. -/
inductive Out where
  | clearHome
  | hideCursor
  | disableWrap
  | home
  | write (blob : List Char)
  | flushEv
  | sleep (us : Nat)
  | enableWrap
  | showCursor
  | clearHomeEnd
deriving DecidableEq, Repr

/-- Mode-establishing control sequences issued before the first frame
(src/main.rs lines 148-152). -/
def setupSeq : List Out := [.clearHome, .hideCursor, .disableWrap]

/-- Restoration control sequences issued after the frame loop (src/main.rs
lines 192-194). -/
def restoreSeq : List Out := [.enableWrap, .showCursor, .clearHomeEnd]

/-- Shallow embedding of the per-frame emission loop (src/main.rs lines
181-189). For each frame: cursor home, one atomic blob write, a flush, then
a sleep of `1000000 / rate` microseconds. `flushOk i` models whether the
`flush().unwrap()` of the `i`-th frame succeeds; a failed flush panics, so
the trace ends there with the `false` (aborted) flag. When `rate = 0` the
sleep-duration division `1000000 / frame_rate` panics in Rust, so the
iteration aborts right after the flush, again with the `false` flag. -/
def playLoop (rate : Nat) (flushOk : Nat → Bool) : Nat → List (List Char) → List Out × Bool
  | _, [] => ([], true)
  | i, b :: rest =>
    if flushOk i then
      if rate = 0 then ([.home, .write b, .flushEv], false)
      else
        let r := playLoop rate flushOk (i + 1) rest
        (.home :: .write b :: .flushEv :: .sleep (1000000 / rate) :: r.1, r.2)
    else ([.home, .write b], false)

/-- Shallow embedding of the emission behaviour of `display_loop`
(src/main.rs lines 144-195) on already-rendered blobs: the setup sequences,
then the per-frame loop, then — only when the loop completed without a
panic — the restoration sequences, which are plain statements after the
loop with no unwind protection. The returned flag is `true` iff the loop
completed normally. -/
def display_loop (blobs : List (List Char)) (flushOk : Nat → Bool) (rate : Nat) :
    List Out × Bool :=
  let r := playLoop rate flushOk 0 blobs
  (setupSeq ++ r.1 ++ (if r.2 then restoreSeq else []), r.2)

/-- Shallow embedding of the inter-frame delay computation
`Duration::from_micros((1000000 / frame_rate) as u64)` (src/main.rs line
188). Rust integer division panics on a zero divisor, modelled as `none`. -/
def frame_delay_micros (frame_rate : Nat) : Option Nat :=
  if frame_rate = 0 then none else some (1000000 / frame_rate)

/-- Outcome of the `ffmpeg` invocation in `split_and_resize_frames`
(src/main.rs lines 96-114): `failed` models `Command::output()` returning
`Err` (tool cannot be located or invoked); `ran status` models the tool
being spawned and exiting with the given status — the source never
inspects that status. -/
inductive SpawnRes where
  | failed
  | ran (status : Nat)
deriving DecidableEq

/-- Observable run-level effects of `main` (src/main.rs lines 72-87):
`mkdir` = `make_dir(&opts.cache)`, `diag` = the "Failed to execute ffmpeg"
diagnostic, `extract s` = a completed `ffmpeg` invocation with exit status
`s`, `play` = `display_loop` returning normally, `rmdir` =
`fs::remove_dir_all(&opts.cache)`. -/
inductive Ev where
  | mkdir
  | diag
  | extract (status : Nat)
  | play
  | rmdir
deriving DecidableEq, Repr

/-- Process outcome: a normal `exit(code)` / return from `main`, or a panic
(an `unwrap`/`expect` failure unwinding out of `main`). -/
inductive Outcome where
  | exited (code : Nat)
  | panicked
deriving DecidableEq, Repr

/-- Shallow embedding of the effect order of `main` (src/main.rs lines
72-87) for runs in which `make_dir` succeeds. `ffmpeg` is the outcome of
the extraction spawn; `playOk` models whether `display_loop` returns
normally (`false` = one of its `unwrap`s panicked). On spawn failure the
`unwrap_or_else` closure prints the diagnostic and calls `exit(1)` before
playback; on a playback panic the trailing `remove_dir_all` never runs;
otherwise the run removes the cache directory and returns (exit 0). -/
def mainRun : SpawnRes → Bool → List Ev × Outcome
  | .failed, _ => ([.mkdir, .diag], .exited 1)
  | .ran s, true => ([.mkdir, .extract s, .play, .rmdir], .exited 0)
  | .ran s, false => ([.mkdir, .extract s], .panicked)

/-- Shallow embedding of Rust `str::split_once(sep)`: the pieces before and
after the first occurrence of `sep`, or `none` when `sep` does not occur. -/
def splitOnce (sep : Char) : List Char → Option (List Char × List Char)
  | [] => none
  | c :: cs =>
    if c = sep then some ([], cs)
    else (splitOnce sep cs).map (fun p => (c :: p.1, p.2))

/-- Shallow embedding of Rust `str::trim`: whitespace stripped from both
ends. -/
def trimChars (s : List Char) : List Char :=
  ((s.dropWhile Char.isWhitespace).reverse.dropWhile Char.isWhitespace).reverse

/-- Shallow embedding of `get_frame_rate` (src/main.rs lines 116-142).
`probe` is the outcome of the `ffprobe` invocation: `none` models a failed
command or non-UTF-8 output, `some out` its captured stdout. The numeric
part is parameterised: `parse` stands for `str::parse::<f32>` and `fdiv`
for `(num / den) as u32`; every claim proved below is independent of their
semantics. The source trims the output, splits it at the first `/`, parses
both sides, and yields `none` whenever any of these steps fails. -/
def get_frame_rate {α : Type} (parse : List Char → Option α) (fdiv : α → α → Nat)
    (probe : Option (List Char)) : Option Nat :=
  match probe with
  | none => none
  | some out =>
    match splitOnce '/' (trimChars out) with
    | none => none
    | some nd =>
      match parse nd.1, parse nd.2 with
      | some n, some d => some (fdiv n d)
      | _, _ => none

/-- Effective frame rate used for pacing (src/main.rs lines 77-79):
`opts.fps.unwrap_or(get_frame_rate(&opts.input).unwrap_or(30))`. -/
def effectiveFps (fpsFlag : Option Nat) (probed : Option Nat) : Nat :=
  fpsFlag.getD (probed.getD 30)

/-- Big-endian fixed-width zero-padded decimal numeral, `k` digits wide:
the rendering `%07d` (with `k = 7`) gives an index below `10^k`
(src/main.rs line 106). -/
def padBE : Nat → Nat → List Char
  | 0, _ => []
  | k + 1, n => Nat.digitChar (n / 10 ^ k) :: padBE k (n % 10 ^ k)

/-- File name of the `i`-th extracted frame, per the `frame-%07d.png`
pattern passed to `ffmpeg` (src/main.rs line 106). -/
def frameFileName (i : Nat) : List Char :=
  "frame-".toList ++ (padBE 7 i ++ ".png".toList)

/-- Byte-wise lexicographic strict order on character lists, as used by
`frame_files.sort()` on the extracted paths (src/main.rs line 159). -/
def lexLt : List Char → List Char → Bool
  | [], [] => false
  | [], _ :: _ => true
  | _ :: _, [] => false
  | a :: as, b :: bs => decide (a < b) || (decide (a = b) && lexLt as bs)


set_option maxHeartbeats 1000000 in
lemma get_pixel_char_ne_newline (l : Nat) : get_pixel_char l ≠ '\n' := by
  unfold get_pixel_char
  split_ifs <;> decide

lemma render_zero (img : Nat → Nat → Nat) (w : Nat) : render img w 0 = [] := by
  simp [render]

lemma render_succ (img : Nat → Nat → Nat) (w h : Nat) :
    render img w (h + 1) =
      render img w h ++ ((List.range w).map (fun x => get_pixel_char (img x h)) ++ ['\n']) := by
  simp [render, List.range_succ]

/-- C2: rendering one frame yields exactly `w*h + h` characters, of which
exactly `h` are newline row terminators (one per row), hence `w*h` glyphs. -/
theorem render_blob_length (img : Nat → Nat → Nat) (w h : Nat)
    (hw : 1 ≤ w) (hh : 1 ≤ h) :
    (render img w h).length = w * h + h ∧ (render img w h).count '\n' = h := by
  clear hw hh
  induction h with
  | zero => simp [render_zero]
  | succ h ih =>
    constructor
    · rw [render_succ]
      simp [ih.1, Nat.mul_succ]
      omega
    · rw [render_succ]
      rw [List.count_append, ih.2, List.count_append]
      have hz : ((List.range w).map (fun x => get_pixel_char (img x h))).count '\n' = 0 := by
        rw [List.count_eq_zero]
        intro hmem
        rcases List.mem_map.mp hmem with ⟨x, _, hx⟩
        exact get_pixel_char_ne_newline (img x h) hx
      simp [hz]

/-- Witness for C2 at a concrete image and resolution. -/
theorem render_blob_length_witness :
    1 ≤ 2 ∧ 1 ≤ 3 ∧
      (render (fun _ _ => 100) 2 3).length = 2 * 3 + 3 ∧
      (render (fun _ _ => 100) 2 3).count '\n' = 3 :=
  ⟨by decide, by decide,
   (render_blob_length (fun _ _ => 100) 2 3 (by decide) (by decide)).1,
   (render_blob_length (fun _ _ => 100) 2 3 (by decide) (by decide)).2⟩

set_option maxRecDepth 4000 in
set_option maxHeartbeats 1000000 in
/-- C1: on the whole `u8` domain the glyph mapper agrees with the §4.1
bucket table (looked up independently via `specGlyph`), and the boundary
inputs 0, 21, 22, 241, 242, 255 map to ' ', '.', ',', '$', '@', '@'. The
mapper is a total function on its domain by construction (no error path). -/
theorem get_pixel_char_matches_bucket_table :
    (∀ l : Nat, l < 256 → get_pixel_char l = specGlyph l) ∧
      get_pixel_char 0 = ' ' ∧ get_pixel_char 21 = '.' ∧ get_pixel_char 22 = ',' ∧
      get_pixel_char 241 = '$' ∧ get_pixel_char 242 = '@' ∧ get_pixel_char 255 = '@' :=
  ⟨by decide, by decide, by decide, by decide, by decide, by decide, by decide⟩

/-- Witness for C1 at the concrete luminance 128 (the spec's §8 example:
mid-gray falls in the 110-131 bucket, glyph ';'). -/
theorem get_pixel_char_matches_bucket_table_witness :
    (128 : Nat) < 256 ∧ get_pixel_char 128 = specGlyph 128 ∧ specGlyph 128 = ';' :=
  ⟨by decide, get_pixel_char_matches_bucket_table.1 128 (by decide), by decide⟩

/-- C3 counterexample: at width 0 and height 1 the rendered blob is not
empty — the row loop still appends one newline terminator per row, so the
blob has 1 character, refuting "zero characters, including zero row
terminators" for width = 0. -/
theorem render_width_zero_not_empty :
    (render (fun _ _ => 0) 0 1).length ≠ 0 := by decide

/-- C3 amended: height = 0 does yield an empty blob for every width, but
width = 0 with height `h` yields exactly the `h` row terminators
(`replicate h '\n'`) — an empty blob only when `h = 0`. -/
theorem render_degenerate_resolution (img : Nat → Nat → Nat) (w h : Nat) :
    render img w 0 = [] ∧ render img 0 h = List.replicate h '\n' := by
  refine ⟨render_zero img w, ?_⟩
  induction h with
  | zero => simp [render_zero]
  | succ h ih =>
    rw [render_succ, ih]
    simp [List.replicate_succ']

lemma playLoop_completes (rate : Nat) (flushOk : Nat → Bool) (hr : rate ≠ 0)
    (hf : ∀ i, flushOk i = true) :
    ∀ (blobs : List (List Char)) (i : Nat), (playLoop rate flushOk i blobs).2 = true := by
  intro blobs
  induction blobs with
  | nil => intro i; simp [playLoop]
  | cons b rest ih =>
    intro i
    simp only [playLoop, hf i, if_true, if_neg hr]
    exact ih (i + 1)

lemma playLoop_sleep_value (rate : Nat) (flushOk : Nat → Bool) :
    ∀ (blobs : List (List Char)) (i us : Nat),
      Out.sleep us ∈ (playLoop rate flushOk i blobs).1 → us = 1000000 / rate := by
  intro blobs
  induction blobs with
  | nil => intro i us h; simp [playLoop] at h
  | cons b rest ih =>
    intro i us h
    simp only [playLoop] at h
    by_cases hf : flushOk i
    · rw [if_pos hf] at h
      by_cases hr : rate = 0
      · rw [if_pos hr] at h
        simp at h
      · rw [if_neg hr] at h
        simp only [List.mem_cons] at h
        rcases h with h | h | h | h | h
        · exact absurd h (by simp)
        · exact absurd h (by simp)
        · exact absurd h (by simp)
        · exact (Out.sleep.injEq us _).mp h
        · exact ih (i + 1) us h
    · rw [if_neg hf] at h
      simp at h

/-- C4 counterexample: a playback run aborted by a failing stream flush on
the first frame (the `flush().unwrap()` panic) emits neither the re-enable
line-wrap nor the show-cursor restoration sequence — the terminal is left
in the degraded display mode. -/
theorem display_loop_abort_skips_restore :
    Out.enableWrap ∉ (display_loop [['x']] (fun _ => false) 30).1 ∧
      Out.showCursor ∉ (display_loop [['x']] (fun _ => false) 30).1 := by decide

/-- C4 amended: when every per-frame flush succeeds and the frame rate is
nonzero — i.e. the frame loop completes normally — the emitted trace is the
setup sequences, then the frame loop's trace, then the restoration
sequences; restoration occurs only after such a normal completion, since
the restoring prints are plain statements after the loop with no unwind
protection. -/
theorem display_loop_restores_after_normal_loop
    (blobs : List (List Char)) (flushOk : Nat → Bool) (rate : Nat)
    (hr : 1 ≤ rate) (hf : ∀ i, flushOk i = true) :
    display_loop blobs flushOk rate =
      (setupSeq ++ (playLoop rate flushOk 0 blobs).1 ++ restoreSeq, true) := by
  have hok := playLoop_completes rate flushOk (by omega) hf blobs 0
  simp [display_loop, hok]

/-- Witness for C4's amended theorem at one concrete frame list. -/
theorem display_loop_restores_after_normal_loop_witness :
    1 ≤ 30 ∧ (∀ i : Nat, (fun _ : Nat => true) i = true) ∧
      display_loop [['x']] (fun _ => true) 30 =
        (setupSeq ++ (playLoop 30 (fun _ => true) 0 [['x']]).1 ++ restoreSeq, true) :=
  ⟨by decide, fun _ => rfl,
   display_loop_restores_after_normal_loop [['x']] (fun _ => true) 30 (by decide)
     (fun _ => rfl)⟩

/-- C7: for every frame rate ≥ 1 the inter-frame delay is exactly
`1000000 / rate` microseconds (integer division) — every sleep the playback
loop performs has exactly that duration — while frame rate 0 has no delay
value (the division panics) and a playback run over at least one frame at
rate 0 aborts instead of sleeping. -/
theorem frame_delay_exact_and_zero_fails_fast :
    (∀ rate : Nat, 1 ≤ rate →
        frame_delay_micros rate = some (1000000 / rate) ∧
        ∀ (blobs : List (List Char)) (flushOk : Nat → Bool) (us : Nat),
          Out.sleep us ∈ (display_loop blobs flushOk rate).1 → us = 1000000 / rate) ∧
      frame_delay_micros 0 = none ∧
      (∀ (b : List Char) (blobs : List (List Char)) (flushOk : Nat → Bool),
        (display_loop (b :: blobs) flushOk 0).2 = false) := by
  refine ⟨fun rate hr => ⟨by simp [frame_delay_micros]; omega, ?_⟩, by simp [frame_delay_micros], ?_⟩
  · intro blobs flushOk us h
    simp only [display_loop, List.mem_append] at h
    rcases h with (h | h) | h
    · simp [setupSeq] at h
    · exact playLoop_sleep_value rate flushOk blobs 0 us h
    · rcases hs : (playLoop rate flushOk 0 blobs).2 with _ | _ <;> rw [hs] at h
      · simp at h
      · simp [restoreSeq] at h
  · intro b blobs flushOk
    simp only [display_loop, playLoop]
    by_cases hf : flushOk 0 <;> simp [hf]

/-- Witness for C7 at frame rate 30 and a one-frame playback. -/
theorem frame_delay_exact_witness :
    1 ≤ 30 ∧ frame_delay_micros 30 = some (1000000 / 30) ∧
      Out.sleep 33333 ∈ (display_loop [['x']] (fun _ => true) 30).1 ∧
      (33333 : Nat) = 1000000 / 30 :=
  ⟨by decide, (frame_delay_exact_and_zero_fails_fast.1 30 (by decide)).1, by decide,
   (frame_delay_exact_and_zero_fails_fast.1 30 (by decide)).2 [['x']] (fun _ => true) 33333
     (by decide)⟩

/-- C5 counterexample: a run in which `ffmpeg` cannot be spawned gets past
directory creation (`mkdir` is in its effect trace) yet never removes the
cache directory — `exit(1)` inside `unwrap_or_else` fires before the
trailing `remove_dir_all`. -/
theorem mainRun_spawn_failure_keeps_cache :
    Ev.mkdir ∈ (mainRun .failed true).1 ∧ Ev.rmdir ∉ (mainRun .failed true).1 := by decide

/-- C5 amended: the cache directory is removed exactly at the end of runs
in which the extraction tool was spawned and playback returned normally —
such a complete successful run ends with `rmdir` and exit status 0 — while
a run that exits because the spawn failed, or aborts in playback with a
panic, never reaches the removal. -/
theorem mainRun_cache_cleanup (s : Nat) (p : Bool) :
    mainRun (.ran s) true = ([.mkdir, .extract s, .play, .rmdir], .exited 0) ∧
      Ev.rmdir ∉ (mainRun .failed p).1 ∧
      Ev.rmdir ∉ (mainRun (.ran s) false).1 := by
  refine ⟨rfl, ?_, ?_⟩
  · cases p <;> simp [mainRun]
  · simp [mainRun]

/-- C8 counterexample: a run in which `ffmpeg` is spawned but exits with
status 1 (extraction failed) is not fatal — the program never inspects the
reported status, playback still occurs and the process exits with status 0,
refuting "extraction otherwise fails → diagnostic, exit 1, no playback". -/
theorem mainRun_extract_error_not_fatal :
    (mainRun (.ran 1) true).2 = .exited 0 ∧ Ev.play ∈ (mainRun (.ran 1) true).1 := by decide

/-- C8 amended: only failure to locate or invoke the extraction tool is
fatal — the diagnostic is printed and the process exits with status 1
before any playback; when the tool spawns, its exit status is ignored, the
run proceeds to playback and a normally completing run exits with status 0. -/
theorem mainRun_exit_codes (s : Nat) (p : Bool) :
    (mainRun .failed p = ([.mkdir, .diag], .exited 1) ∧
        Ev.play ∉ (mainRun .failed p).1) ∧
      mainRun (.ran s) true = ([.mkdir, .extract s, .play, .rmdir], .exited 0) := by
  refine ⟨⟨?_, ?_⟩, rfl⟩
  · cases p <;> rfl
  · cases p <;> simp [mainRun]

lemma splitOnce_eq_none_iff (sep : Char) :
    ∀ l : List Char, splitOnce sep l = none ↔ sep ∉ l := by
  intro l
  induction l with
  | nil => simp [splitOnce]
  | cons c cs ih =>
    by_cases hc : c = sep
    · subst hc
      simp [splitOnce]
    · simp only [splitOnce, if_neg hc, Option.map_eq_none', ih, List.mem_cons]
      constructor
      · intro h
        push_neg
        exact ⟨fun he => hc he.symm, h⟩
      · intro h
        exact fun hm => h (Or.inr hm)

lemma mem_trimChars_of_mem {c : Char} {s : List Char} (h : c ∈ trimChars s) : c ∈ s := by
  unfold trimChars at h
  rw [List.mem_reverse] at h
  have h2 := (List.dropWhile_sublist (l := (s.dropWhile Char.isWhitespace).reverse)
    (p := Char.isWhitespace)).mem h
  rw [List.mem_reverse] at h2
  exact (List.dropWhile_sublist (l := s) (p := Char.isWhitespace)).mem h2

/-- C6: whenever the frame-rate probe fails outright, or its output has no
`/`-separated shape, or either side of the `/` fails to parse — for any
semantics of the numeric parsing and division — `get_frame_rate` yields
`none`, and with no `--fps` flag the effective pacing rate is the fixed
default 30. -/
theorem frame_rate_fallback_default_30 {α : Type}
    (parse : List Char → Option α) (fdiv : α → α → Nat) (probe : Option (List Char))
    (hbad : probe = none ∨
      ∃ out, probe = some out ∧
        (splitOnce '/' (trimChars out) = none ∨
          ∃ nd, splitOnce '/' (trimChars out) = some nd ∧
            (parse nd.1 = none ∨ parse nd.2 = none))) :
    get_frame_rate parse fdiv probe = none ∧
      effectiveFps none (get_frame_rate parse fdiv probe) = 30 := by
  have hnone : get_frame_rate parse fdiv probe = none := by
    rcases hbad with h | ⟨out, hout, hsplit | ⟨nd, hnd, hparse⟩⟩
    · rw [h]; rfl
    · rw [hout]; simp [get_frame_rate, hsplit]
    · rw [hout]
      simp only [get_frame_rate, hnd]
      rcases hparse with hp | hp
      · simp [hp]
      · rcases hq : parse nd.1 with _ | v <;> simp [hq, hp]
  exact ⟨hnone, by simp [effectiveFps, hnone]⟩

/-- Witness for C6 on the concrete malformed probe output "abc" (no `/`). -/
theorem frame_rate_fallback_default_30_witness :
    (some "abc".toList = none ∨
        ∃ out, some "abc".toList = some out ∧
          (splitOnce '/' (trimChars out) = none ∨
            ∃ nd, splitOnce '/' (trimChars out) = some nd ∧
              ((fun _ : List Char => (none : Option Nat)) nd.1 = none ∨
                (fun _ : List Char => (none : Option Nat)) nd.2 = none))) ∧
      get_frame_rate (fun _ : List Char => (none : Option Nat)) (fun _ _ => 0)
          (some "abc".toList) = none ∧
      effectiveFps none (get_frame_rate (fun _ : List Char => (none : Option Nat))
          (fun _ _ => 0) (some "abc".toList)) = 30 :=
  ⟨Or.inr ⟨"abc".toList, rfl, Or.inl (by decide)⟩,
   frame_rate_fallback_default_30 _ _ _ (Or.inr ⟨"abc".toList, rfl, Or.inl (by decide)⟩)⟩

/-- C10: every probe output containing no `/` separator — a well-formed
plain integer such as "25" included — makes `get_frame_rate` yield `none`,
for any numeric-parsing semantics, so without a `--fps` flag such output
silently falls back to the default pacing rate 30. -/
theorem frame_rate_probe_requires_slash {α : Type}
    (parse : List Char → Option α) (fdiv : α → α → Nat) (out : List Char)
    (hns : '/' ∉ out) :
    get_frame_rate parse fdiv (some out) = none ∧
      effectiveFps none (get_frame_rate parse fdiv (some out)) = 30 := by
  have htrim : '/' ∉ trimChars out := fun hm => hns (mem_trimChars_of_mem hm)
  have hsplit : splitOnce '/' (trimChars out) = none := (splitOnce_eq_none_iff _ _).mpr htrim
  have hnone : get_frame_rate parse fdiv (some out) = none := by
    simp [get_frame_rate, hsplit]
  exact ⟨hnone, by simp [effectiveFps, hnone]⟩

/-- Witness for C10 on the concrete plain-integer probe output "25". -/
theorem frame_rate_probe_requires_slash_witness :
    '/' ∉ "25".toList ∧
      get_frame_rate (fun _ : List Char => (some 0 : Option Nat)) (fun _ _ => 0)
          (some "25".toList) = none ∧
      effectiveFps none (get_frame_rate (fun _ : List Char => (some 0 : Option Nat))
          (fun _ _ => 0) (some "25".toList)) = 30 :=
  ⟨by decide,
   frame_rate_probe_requires_slash (fun _ => (some 0 : Option Nat)) (fun _ _ => 0)
     "25".toList (by decide)⟩

lemma lt_iff_div_lt_or_mod_lt (q n m : Nat) (hq : 0 < q) :
    n < m ↔ (n / q < m / q ∨ (n / q = m / q ∧ n % q < m % q)) := by
  have h1 := Nat.div_add_mod n q
  have h2 := Nat.div_add_mod m q
  have h3 : n % q < q := Nat.mod_lt _ hq
  have h4 : m % q < q := Nat.mod_lt _ hq
  constructor
  · intro h
    rcases Nat.lt_or_ge (n / q) (m / q) with hlt | hge
    · exact Or.inl hlt
    · have heq : n / q = m / q :=
        Nat.le_antisymm (Nat.div_le_div_right (Nat.le_of_lt h)) hge
      refine Or.inr ⟨heq, ?_⟩
      rw [← heq] at h2
      omega
  · intro h
    rcases h with hlt | ⟨heq, hmod⟩
    · have h5 : q * (n / q + 1) ≤ q * (m / q) := Nat.mul_le_mul_left q hlt
      rw [Nat.mul_succ] at h5
      omega
    · rw [← heq] at h2
      omega

lemma digitChar_lt_iff :
    ∀ a : Nat, a < 10 → ∀ b : Nat, b < 10 →
      (Nat.digitChar a < Nat.digitChar b ↔ a < b) := by decide

lemma digitChar_eq_iff :
    ∀ a : Nat, a < 10 → ∀ b : Nat, b < 10 →
      (Nat.digitChar a = Nat.digitChar b ↔ a = b) := by decide

lemma lexLt_cons_iff (a b : Char) (as bs : List Char) :
    lexLt (a :: as) (b :: bs) = true ↔ a < b ∨ (a = b ∧ lexLt as bs = true) := by
  simp [lexLt]

lemma padBE_length : ∀ k n, (padBE k n).length = k := by
  intro k
  induction k with
  | zero => intro n; rfl
  | succ k ih => intro n; simp [padBE, ih]

lemma padBE_lt_iff : ∀ k n m, n < 10 ^ k → m < 10 ^ k →
    (lexLt (padBE k n) (padBE k m) = true ↔ n < m) := by
  intro k
  induction k with
  | zero =>
    intro n m hn hm
    simp only [pow_zero, Nat.lt_one_iff] at hn hm
    subst hn; subst hm
    simp [padBE, lexLt]
  | succ k ih =>
    intro n m hn hm
    have hq : 0 < 10 ^ k := Nat.pos_pow_of_pos k (by norm_num)
    rw [pow_succ] at hn hm
    have hdn : n / 10 ^ k < 10 := Nat.div_lt_of_lt_mul hn
    have hdm : m / 10 ^ k < 10 := Nat.div_lt_of_lt_mul hm
    have hmn : n % 10 ^ k < 10 ^ k := Nat.mod_lt _ hq
    have hmm : m % 10 ^ k < 10 ^ k := Nat.mod_lt _ hq
    simp only [padBE]
    rw [lexLt_cons_iff, digitChar_lt_iff _ hdn _ hdm, digitChar_eq_iff _ hdn _ hdm,
        ih _ _ hmn hmm, lt_iff_div_lt_or_mod_lt (10 ^ k) n m hq]

lemma lexLt_self : ∀ a : List Char, lexLt a a = false := by
  intro a
  induction a with
  | nil => rfl
  | cons c cs ih => simp [lexLt, ih, lt_irrefl]

lemma lexLt_append_same (p a b : List Char) : lexLt (p ++ a) (p ++ b) = lexLt a b := by
  induction p with
  | nil => rfl
  | cons c cs ih => simp [lexLt, ih, lt_irrefl]

lemma lexLt_append_congr : ∀ (a b s t : List Char), a.length = b.length →
    (lexLt (a ++ s) (b ++ t) = true ↔
      (lexLt a b = true ∨ (a = b ∧ lexLt s t = true))) := by
  intro a
  induction a with
  | nil =>
    intro b s t hb
    have hbn : b = [] := by
      cases b with
      | nil => rfl
      | cons y ys => simp at hb
    subst hbn
    simp [lexLt]
  | cons x xs ih =>
    intro b s t hb
    cases b with
    | nil => simp at hb
    | cons y ys =>
      have hlen : xs.length = ys.length := by simpa using hb
      simp only [List.cons_append]
      rw [lexLt_cons_iff, lexLt_cons_iff, ih ys s t hlen]
      constructor
      · rintro (h | ⟨he, h2 | ⟨he2, h3⟩⟩)
        · exact Or.inl (Or.inl h)
        · exact Or.inl (Or.inr ⟨he, h2⟩)
        · exact Or.inr ⟨by rw [he, he2], h3⟩
      · rintro ((h | ⟨he, h2⟩) | ⟨he, h3⟩)
        · exact Or.inl h
        · exact Or.inr ⟨he, Or.inl h2⟩
        · injection he with hx hxs
          exact Or.inr ⟨hx, Or.inr ⟨hxs, h3⟩⟩

/-- C9: for frame indices representable in 7 digits, byte-wise
lexicographic order on the zero-padded `frame-%07d.png` file names is
exactly numeric order on the indices, so sorting the extracted file names
lexicographically plays frames in temporal order. -/
theorem frame_file_names_sorted_by_index (i j : Nat)
    (hi : i < 10 ^ 7) (hj : j < 10 ^ 7) :
    lexLt (frameFileName i) (frameFileName j) = true ↔ i < j := by
  unfold frameFileName
  rw [lexLt_append_same, lexLt_append_congr _ _ _ _ (by rw [padBE_length, padBE_length]),
      lexLt_self]
  simp only [Bool.false_eq_true, and_false, or_false]
  exact padBE_lt_iff 7 i j hi hj

/-- Witness for C9 at the concrete indices 2 and 10, where a non-padded
naming would sort wrongly ("frame-10" < "frame-2") but the padded one is
correct. -/
theorem frame_file_names_sorted_by_index_witness :
    2 < 10 ^ 7 ∧ 10 < 10 ^ 7 ∧
      (lexLt (frameFileName 2) (frameFileName 10) = true ↔ 2 < 10) :=
  ⟨by norm_num, by norm_num,
   frame_file_names_sorted_by_index 2 10 (by norm_num) (by norm_num)⟩
